import Mathlib

/-!
# Verification of the Remote Session Automation Core (`cli_gemini.py`)

Shallow embedding of the decision logic of `src/cli_gemini.py`:

* `resolve_cdp_endpoint`   — `_resolve_cdp_endpoint` (lines 15-35)
* `find_input_locator`     — `_find_input_locator` (lines 38-69)
* `type_and_send`          — `_type_and_send` (lines 115-147)
* `waitLoopO` / `wait_for_response_and_get_text`
                           — `_wait_for_response_and_get_text` (lines 149-210)
* `runResult`              — tail of `run` (lines 276-287)

External effects (Playwright calls, the page DOM, wall-clock time) are
modelled as explicit inputs: each awaited page read becomes a field of an
observation record, and the monotonic clock becomes a millisecond timestamp
carried by each observation.  Machine times are `Nat` milliseconds measured
from the detector's `start`.
-/

/-! ## Endpoint resolver (`_resolve_cdp_endpoint`, lines 15-35) -/

/-- `chLeads s pat`: the char list `pat` is an initial segment of `s`. -/
def chLeads : List Char → List Char → Bool
  | _, [] => true
  | [], _ :: _ => false
  | c :: cs, p :: ps => c == p && chLeads cs ps

/-- `chHasSub s pat`: `pat` occurs as a contiguous segment of `s`. -/
def chHasSub : List Char → List Char → Bool
  | [], pat => chLeads [] pat
  | c :: rest, pat => chLeads (c :: rest) pat || chHasSub rest pat

/-- Python substring test `pat in s`. -/
def strContains (s pat : String) : Bool :=
  chHasSub s.data pat.data

/-- Result of `urlparse(endpoint)` (Python stdlib, external to the repo):
the fields the resolver reads.  `path` is `u.path or ""`, i.e. the empty
string when the URL has no path. -/
structure UrlParts where
  scheme : String
  hostname : Option String
  port : Option Nat
  path : String
deriving DecidableEq, Repr

/-- The discovery GET `req.get(http_base + "/json/version")` (lines 24-28),
modelled as a function from the requested URL to the response.
`notOk` is `resp.ok == False`; `ok field` carries `data.get("webSocketDebuggerUrl")`
of the parsed JSON body (`none` when the key is absent). -/
inductive DiscResp where
  | notOk
  | ok (webSocketDebuggerUrl : Option String)
deriving DecidableEq, Repr

/-- The two `RuntimeError`s of `_resolve_cdp_endpoint`, distinguished by their
raise sites/messages: line 27 "CDP endpoint not reachable at {http_base}"
and line 31 "webSocketDebuggerUrl missing in /json/version response".
The spec names them `EndpointUnreachable` and `EndpointMalformed`. -/
inductive ResolveErr where
  | endpointUnreachable (httpBase : String)
  | endpointMalformed
deriving DecidableEq, Repr

/-- The discovery origin of lines 20-23: `http` for `ws` (`https` for `wss`),
the parsed hostname defaulting to `127.0.0.1`, and `":{port}"` only when a
port was parsed. -/
def httpBaseOf (u : UrlParts) : String :=
  (if u.scheme = "wss" then "https" else "http") ++ "://"
    ++ u.hostname.getD "127.0.0.1"
    ++ (match u.port with
        | some p => ":" ++ toString p
        | none => "")

/-- `_resolve_cdp_endpoint(p, endpoint)`, lines 15-35.  `u = urlparse endpoint`
is passed alongside the raw string; `disc` is the discovery oracle.
Line-by-line:
* ws/wss with "/devtools/" in the path: return `endpoint` unchanged (17-19);
* ws/wss otherwise: GET `{httpBaseOf u}/json/version`; a non-ok response
  raises (unreachable, line 27); a missing or empty `webSocketDebuggerUrl`
  raises (malformed, line 31) — Python `if not ws_url` is falsy on both
  `None` and `""`; otherwise return the field (20-32);
* http/https: return `endpoint` unchanged (33-34);
* anything else: prefix `http://` (35). -/
def resolve_cdp_endpoint (u : UrlParts) (endpoint : String)
    (disc : String → DiscResp) : Except ResolveErr String :=
  if u.scheme = "ws" ∨ u.scheme = "wss" then
    if strContains u.path "/devtools/" then
      .ok endpoint
    else
      match disc (httpBaseOf u ++ "/json/version") with
      | .notOk => .error (.endpointUnreachable (httpBaseOf u))
      | .ok none => .error .endpointMalformed
      | .ok (some w) => if w = "" then .error .endpointMalformed else .ok w
  else if u.scheme = "http" ∨ u.scheme = "https" then
    .ok endpoint
  else
    .ok ("http://" ++ endpoint)

/-! ## Target locator (`_find_input_locator`, lines 38-69)

The page is modelled by the list of match-lists the seven CSS queries produce,
in the order of the `candidates` list.  Each matched element carries one bit:
whether it becomes visible within the waited-for window (the 6 s wait on the
last match, resp. the 2 s wait on the first, are collapsed into this bit, as
the claims do not depend on the wait lengths).  A `loc.count()` timeout
(lines 52-54, caught, `c = 0`) is modelled as an empty match list — both make
`c > 0` false and skip the query. -/

structure DomElem where
  visible : Bool
deriving DecidableEq, Repr

/-- The locator's result: the `elemIdx`-th match (0-based document order) of
the `queryIdx`-th query, or the `body` fallback of line 69. -/
inductive Located where
  | elem (queryIdx : Nat) (elemIdx : Nat)
  | body
deriving DecidableEq, Repr

/-- One query's attempt, lines 55-67: with `c > 0` matches, wait for
`nth (c-1)` to become visible and return it; on timeout wait for `first`
and return it; on a second timeout give up on this query (`continue`). -/
def pickFrom (els : List DomElem) : Option Nat :=
  match els.getLast?, els.head? with
  | some lastEl, some headEl =>
      if lastEl.visible then some (els.length - 1)
      else if headEl.visible then some 0
      else none
  | _, _ => none

/-- `_find_input_locator`, lines 49-69: try each query in order, return the
first query's pick, else the document body. -/
def find_input_locator_aux : Nat → List (List DomElem) → Located
  | _, [] => .body
  | qi, ms :: rest =>
    match pickFrom ms with
    | some ei => .elem qi ei
    | none => find_input_locator_aux (qi + 1) rest

def find_input_locator (queries : List (List DomElem)) : Located :=
  find_input_locator_aux 0 queries

/-- A query all of whose matches are hidden contributes no pick. -/
lemma pickFrom_eq_none_of_invisible (els : List DomElem)
    (h : ∀ e ∈ els, e.visible = false) : pickFrom els = none := by
  unfold pickFrom
  cases hlast : els.getLast? with
  | none => rfl
  | some lastEl =>
    cases hhead : els.head? with
    | none => rfl
    | some headEl =>
      obtain ⟨hne, heq⟩ := List.mem_getLast?_eq_getLast
        (show lastEl ∈ els.getLast? from hlast)
      have h1 : lastEl.visible = false :=
        h lastEl (heq ▸ List.getLast_mem hne)
      have h2 : headEl.visible = false :=
        h headEl (List.mem_of_mem_head? (show headEl ∈ els.head? from hhead))
      simp [h1, h2]

/-- If every query's pick is empty, the locator falls through to the body,
whatever the starting query index. -/
lemma find_input_locator_aux_body (qs : List (List DomElem)) :
    ∀ qi, (∀ ms ∈ qs, pickFrom ms = none) →
    find_input_locator_aux qi qs = .body := by
  induction qs with
  | nil => intro qi _; rfl
  | cons q rest ih =>
    intro qi h
    rw [find_input_locator_aux, h q (List.mem_cons_self _ _)]
    exact ih (qi + 1) (fun ms hms => h ms (List.mem_cons_of_mem _ hms))

/-! ### Resolver claims -/

/-- C7: an endpoint whose parse has a `ws`/`wss` scheme and whose path
contains "/devtools/" (a fully-qualified session address) is returned
unchanged, for every discovery oracle — resolution is idempotent on
already-resolved addresses. -/
theorem C7_resolver_idempotent (u : UrlParts) (endpoint : String)
    (disc : String → DiscResp)
    (hscheme : u.scheme = "ws" ∨ u.scheme = "wss")
    (hpath : strContains u.path "/devtools/" = true) :
    resolve_cdp_endpoint u endpoint disc = .ok endpoint := by
  unfold resolve_cdp_endpoint
  rw [if_pos hscheme]
  simp [hpath]

theorem C7_resolver_idempotent_witness :
    resolve_cdp_endpoint ⟨"ws", some "h", some 1, "/devtools/page/X"⟩
      "ws://h:1/devtools/page/X" (fun _ => .notOk)
      = .ok "ws://h:1/devtools/page/X" :=
  C7_resolver_idempotent _ _ _ (Or.inl rfl) (by decide)

/-- C3 counterexample: the claim says resolving the HTTP origin
`http://h:1` performs discovery and yields the advertised
`ws://h:1/devtools/page/X`; the code returns an `http`/`https` endpoint
unchanged (lines 33-34) and never consults discovery for it, so the result
is `http://h:1`, not the session address. -/
theorem C3_counterexample :
    resolve_cdp_endpoint ⟨"http", some "h", some 1, ""⟩ "http://h:1"
        (fun _ => .ok (some "ws://h:1/devtools/page/X"))
      = .ok "http://h:1" ∧
    ("http://h:1" : String) ≠ "ws://h:1/devtools/page/X" := by
  constructor
  · rfl
  · decide

/-- C3 amended: discovery applies to bare `ws`/`wss` endpoints (no
"/devtools/" in the path), not to HTTP origins.  For a `ws` endpoint with
host `h` and port `p`, the resolver GETs `http://h:p/json/version` and
returns the response's `webSocketDebuggerUrl` field; an `http`/`https`
endpoint is returned unchanged without discovery. -/
theorem C3_amended (host ep w : String) (p : Nat) (path : String)
    (disc : String → DiscResp)
    (hpath : strContains path "/devtools/" = false)
    (hw : w ≠ "")
    (hdisc : disc ("http://" ++ host ++ ":" ++ toString p ++ "/json/version")
      = .ok (some w)) :
    resolve_cdp_endpoint ⟨"ws", some host, some p, path⟩ ep disc = .ok w ∧
    (∀ u : UrlParts, u.scheme = "http" ∨ u.scheme = "https" →
      ∀ disc2, resolve_cdp_endpoint u ep disc2 = .ok ep) := by
  constructor
  · unfold resolve_cdp_endpoint
    rw [if_pos (Or.inl rfl)]
    have hbase : httpBaseOf ⟨"ws", some host, some p, path⟩ ++ "/json/version"
        = "http://" ++ host ++ ":" ++ toString p ++ "/json/version" := by
      unfold httpBaseOf
      simp [String.append_assoc]
    simp only [hpath, Bool.false_eq_true, if_false, hbase, hdisc]
    simp [hw]
  · intro u hu disc2
    unfold resolve_cdp_endpoint
    have hne : ¬ (u.scheme = "ws" ∨ u.scheme = "wss") := by
      rcases hu with h | h <;> rw [h] <;> decide
    rw [if_neg hne, if_pos hu]

theorem C3_amended_witness :
    resolve_cdp_endpoint ⟨"ws", some "h", some 1, ""⟩ "ws://h:1"
        (fun url => if url = "http://h:1/json/version"
          then .ok (some "ws://h:1/devtools/page/X") else .notOk)
      = .ok "ws://h:1/devtools/page/X" :=
  (C3_amended "h" "ws://h:1" "ws://h:1/devtools/page/X" 1 ""
    _ (by decide) (by decide) (by decide)).1

/-- C8: on the discovery path (ws/wss scheme, no "/devtools/" in the path),
a non-2xx discovery response fails with the unreachable error, a 2xx
response lacking `webSocketDebuggerUrl` fails with the malformed error, and
the two failures are distinct values. -/
theorem C8_resolver_failures (u : UrlParts) (endpoint : String)
    (hscheme : u.scheme = "ws" ∨ u.scheme = "wss")
    (hpath : strContains u.path "/devtools/" = false) :
    resolve_cdp_endpoint u endpoint (fun _ => .notOk)
      = .error (.endpointUnreachable (httpBaseOf u)) ∧
    resolve_cdp_endpoint u endpoint (fun _ => .ok none)
      = .error .endpointMalformed ∧
    (∀ base, ResolveErr.endpointUnreachable base ≠ ResolveErr.endpointMalformed) := by
  refine ⟨?_, ?_, fun base h => by cases h⟩
  · unfold resolve_cdp_endpoint
    rw [if_pos hscheme]
    simp [hpath]
  · unfold resolve_cdp_endpoint
    rw [if_pos hscheme]
    simp [hpath]

theorem C8_resolver_failures_witness :
    resolve_cdp_endpoint ⟨"ws", some "h", some 1, ""⟩ "ws://h:1"
      (fun _ => .notOk)
      = .error (.endpointUnreachable (httpBaseOf ⟨"ws", some "h", some 1, ""⟩)) ∧
    resolve_cdp_endpoint ⟨"ws", some "h", some 1, ""⟩ "ws://h:1"
      (fun _ => .ok none) = .error .endpointMalformed ∧
    (∀ base, ResolveErr.endpointUnreachable base ≠ ResolveErr.endpointMalformed) :=
  C8_resolver_failures ⟨"ws", some "h", some 1, ""⟩ "ws://h:1"
    (Or.inl rfl) (by decide)

/-! ### Locator claims -/

/-- C9 counterexample: the claim says the locator returns the last match in
document order for the first query that produces a visible candidate.  With
one query matching `[visible, hidden]`, the query produces a visible
candidate (its first match), but the code's 6 s wait on the last match times
out and the 2 s fallback wait returns `loc.first` (lines 62-65): the result
is match 0, not the last match (index 1). -/
theorem C9_counterexample :
    find_input_locator [[⟨true⟩, ⟨false⟩]] = .elem 0 0 ∧
    Located.elem 0 0 ≠ Located.elem 0 1 := by
  constructor
  · rfl
  · decide

/-- C9 amended: (a) if no query yields any visible match, the locator
returns the document body rather than failing; (b) within the first query
that has matches, the last match is returned when it is visible, otherwise
the first match when that is visible; (c) a query whose last and first
matches are both hidden is skipped entirely (even if an interior match is
visible). -/
theorem C9_amended :
    (∀ queries : List (List DomElem),
      (∀ ms ∈ queries, ∀ e ∈ ms, e.visible = false) →
      find_input_locator queries = .body) ∧
    (∀ (ms : List DomElem) (rest : List (List DomElem)) (lastEl : DomElem),
      ms.getLast? = some lastEl → lastEl.visible = true →
      find_input_locator (ms :: rest) = .elem 0 (ms.length - 1)) ∧
    (∀ (ms : List DomElem) (rest : List (List DomElem)) (lastEl headEl : DomElem),
      ms.getLast? = some lastEl → ms.head? = some headEl →
      lastEl.visible = false → headEl.visible = true →
      find_input_locator (ms :: rest) = .elem 0 0) ∧
    (∀ (qi : Nat) (ms : List DomElem) (rest : List (List DomElem)),
      pickFrom ms = none →
      find_input_locator_aux qi (ms :: rest) = find_input_locator_aux (qi + 1) rest) := by
  refine ⟨?_, ?_, ?_, ?_⟩
  · intro queries hinv
    exact find_input_locator_aux_body queries 0
      (fun ms hms => pickFrom_eq_none_of_invisible ms (hinv ms hms))
  · intro ms rest lastEl hlast hvis
    have hhead : ∃ headEl, ms.head? = some headEl := by
      cases ms with
      | nil => cases hlast
      | cons a l => exact ⟨a, rfl⟩
    obtain ⟨headEl, hh⟩ := hhead
    show find_input_locator_aux 0 (ms :: rest) = .elem 0 (ms.length - 1)
    rw [find_input_locator_aux]
    unfold pickFrom
    rw [hlast, hh]
    simp [hvis]
  · intro ms rest lastEl headEl hlast hhead hlv hhv
    show find_input_locator_aux 0 (ms :: rest) = .elem 0 0
    rw [find_input_locator_aux]
    unfold pickFrom
    rw [hlast, hhead]
    simp [hlv, hhv]
  · intro qi ms rest hpick
    rw [find_input_locator_aux, hpick]

theorem C9_amended_witness :
    find_input_locator [[DomElem.mk false, DomElem.mk false], []] = .body ∧
    find_input_locator [[DomElem.mk true, DomElem.mk true]] = .elem 0 1 ∧
    find_input_locator [[DomElem.mk true, DomElem.mk false]] = .elem 0 0 ∧
    find_input_locator_aux 0 [[DomElem.mk false], [DomElem.mk true]]
      = find_input_locator_aux 1 [[DomElem.mk true]] := by
  refine ⟨?_, ?_, ?_, ?_⟩
  · exact C9_amended.1 [[DomElem.mk false, DomElem.mk false], []] (by decide)
  · exact C9_amended.2.1 [DomElem.mk true, DomElem.mk true] [] (DomElem.mk true)
      (by decide) rfl
  · exact C9_amended.2.2.1 [DomElem.mk true, DomElem.mk false] []
      (DomElem.mk false) (DomElem.mk true) (by decide) rfl rfl rfl
  · exact C9_amended.2.2.2 0 [DomElem.mk false] [[DomElem.mk true]] (by decide)

/-! ## Completion detector (`_wait_for_response_and_get_text`, lines 149-210)

Each loop iteration is one `Poll` observation: the millisecond timestamp of
the iteration (from `start = time.monotonic()`, line 166), the list of
elements matching `response_selector` at that instant, and whether the
`wait_for(state="attached")` (line 188) and the `inner_text()` read
(line 193) succeed.  A `PlaywrightTimeoutError` anywhere in the body is
caught (line 207) and merely skips the iteration, exactly like a too-small
count or a failed attach, so all three gates sit in `pollRead`.  The
stop-button waits (lines 174-177 and 200-203) ignore their own timeouts and
change no state; they only consume time, which is already reflected in the
timestamps. -/

/-- Python `str.strip()`: remove leading and trailing whitespace. -/
def pyStrip (s : String) : String :=
  ⟨((s.data.dropWhile fun c => c == ' ' || c == '\t' || c == '\n' || c == '\r').reverse.dropWhile
      fun c => c == ' ' || c == '\t' || c == '\n' || c == '\r').reverse⟩

/-- One iteration's page observation. -/
structure Poll where
  t : Nat
  blocks : List String
  attached : Bool
  readOk : Bool
deriving DecidableEq, Repr

/-- The text the iteration reads, if any (lines 181-193): `none` when
`count < max(1, baseline_count + min_new)`, when the attach wait times out,
or when the read itself raises a `PlaywrightTimeoutError`; otherwise the
stripped `inner_text` of the last matching block (`nth(count - 1)`; the
`getD ""` default is unreachable because the count gate forces
`blocks.length ≥ 1`). -/
def pollRead (baselineCount minNew : Nat) (p : Poll) : Option String :=
  if p.blocks.length < max 1 (baselineCount + minNew) then none
  else if !p.attached then none
  else if !p.readOk then none
  else some (pyStrip (p.blocks.getLast?.getD ""))

/-- Result of one iteration of the polling loop on the Stability Tracker
state `(lastText, since)`. -/
inductive StepRes where
  | cont (lastText : Option String) (since : Option Nat)
  | done (text : String)
deriving DecidableEq, Repr

/-- Lines 195-204: if the stripped text is non-empty and differs from
`last_text`, store it and reset `stable_since` to the current time;
otherwise, if the text is non-empty, `stable_since` is set (`time.monotonic()`
is strictly positive, so a set `stable_since` is always truthy) and the text
has been unchanged for at least `stable_ms`, return the text; otherwise keep
the state.  An iteration that reads nothing keeps the state. -/
def detStep (stableMs baselineCount minNew : Nat)
    (lastText : Option String) (since : Option Nat) (p : Poll) : StepRes :=
  match pollRead baselineCount minNew p with
  | none => .cont lastText since
  | some text =>
    if text ≠ "" ∧ lastText ≠ some text then .cont (some text) (some p.t)
    else
      match since with
      | some s => if text ≠ "" ∧ stableMs ≤ p.t - s then .done text
                  else .cont lastText since
      | none => .cont lastText since

/-- The detector's two return sites, tagged: line 204 (`return text`, the
stability return) versus line 210 (`return last_text`, reached when
`(time.monotonic() - start) * 1000 < timeout_ms` fails). -/
inductive DetectorOutcome where
  | stable (text : String)
  | timeout (lastText : Option String)
deriving DecidableEq, Repr

/-- The polling loop of lines 179-210.  The `while` guard is checked before
each iteration; a finite observation list models the polls the loop could
perform, the final entries carrying timestamps past the deadline. -/
def waitLoopO (stableMs timeoutMs baselineCount minNew : Nat) :
    List Poll → Option String → Option Nat → DetectorOutcome
  | [], lastText, _ => .timeout lastText
  | p :: rest, lastText, since =>
    if timeoutMs ≤ p.t then .timeout lastText
    else
      match detStep stableMs baselineCount minNew lastText since p with
      | .done text => .stable text
      | .cont lt s => waitLoopO stableMs timeoutMs baselineCount minNew rest lt s

/-- `_wait_for_response_and_get_text(page, stable_ms, timeout_ms, min_new)`:
`baselineCount` is the `count()` taken at entry (line 170; `0` if that read
raises), the state starts as `stable_since = None`, `last_text = None`
(lines 167-168), and both return sites produce the same `Optional[str]`. -/
def wait_for_response_and_get_text (stableMs timeoutMs minNew baselineCount : Nat)
    (polls : List Poll) : Option String :=
  match waitLoopO stableMs timeoutMs baselineCount minNew polls none none with
  | .stable text => some text
  | .timeout lastText => lastText

/-- Modelled from the spec: "the last text it observed" — the final
non-empty stripped read of an observation sequence, starting from `acc`. -/
def lastObserved (baselineCount minNew : Nat) : List Poll → Option String → Option String
  | [], acc => acc
  | p :: rest, acc =>
    match pollRead baselineCount minNew p with
    | some text => lastObserved baselineCount minNew rest
        (if text ≠ "" then some text else acc)
    | none => lastObserved baselineCount minNew rest acc

/-- Characterization of a `done` step: the iteration read the non-empty text
`T`, the snapshot already held `T`, and the set `since` is at least
`stableMs` old. -/
lemma detStep_done_spec (st bl mn : Nat) (lt : Option String) (s : Option Nat)
    (p : Poll) (T : String) (h : detStep st bl mn lt s p = .done T) :
    pollRead bl mn p = some T ∧ T ≠ "" ∧ lt = some T ∧
    ∃ sv, s = some sv ∧ st ≤ p.t - sv := by
  unfold detStep at h
  cases hr : pollRead bl mn p with
  | none => simp only [hr] at h; cases h
  | some text =>
    simp only [hr] at h
    by_cases h1 : text ≠ "" ∧ lt ≠ some text
    · rw [if_pos h1] at h; cases h
    · rw [if_neg h1] at h
      cases hs : s with
      | none => simp only [hs] at h; cases h
      | some sv =>
        simp only [hs] at h
        by_cases h2 : text ≠ "" ∧ st ≤ p.t - sv
        · rw [if_pos h2] at h
          cases h
          have hlt : lt = some T := by
            by_contra hne
            exact h1 ⟨h2.1, hne⟩
          exact ⟨rfl, h2.1, hlt, sv, rfl, h2.2⟩
        · rw [if_neg h2] at h; cases h

/-- Characterization of a `cont` step: either nothing was read, or a
non-empty changed text was stored with `since` reset to the current time,
or the read left the state untouched. -/
lemma detStep_cont_spec (st bl mn : Nat) (lt : Option String) (s : Option Nat)
    (p : Poll) (lt2 : Option String) (s2 : Option Nat)
    (h : detStep st bl mn lt s p = .cont lt2 s2) :
    (pollRead bl mn p = none ∧ lt2 = lt ∧ s2 = s) ∨
    (∃ text, pollRead bl mn p = some text ∧ text ≠ "" ∧ lt ≠ some text ∧
      lt2 = some text ∧ s2 = some p.t) ∨
    (∃ text, pollRead bl mn p = some text ∧ ¬(text ≠ "" ∧ lt ≠ some text) ∧
      lt2 = lt ∧ s2 = s) := by
  unfold detStep at h
  cases hr : pollRead bl mn p with
  | none =>
    simp only [hr] at h
    cases h
    exact Or.inl ⟨rfl, rfl, rfl⟩
  | some text =>
    simp only [hr] at h
    by_cases h1 : text ≠ "" ∧ lt ≠ some text
    · rw [if_pos h1] at h
      cases h
      exact Or.inr (Or.inl ⟨text, rfl, h1.1, h1.2, rfl, rfl⟩)
    · rw [if_neg h1] at h
      cases hs : s with
      | none =>
        simp only [hs] at h
        cases h
        exact Or.inr (Or.inr ⟨text, rfl, h1, rfl, rfl⟩)
      | some sv =>
        simp only [hs] at h
        by_cases h2 : text ≠ "" ∧ st ≤ p.t - sv
        · rw [if_pos h2] at h; cases h
        · rw [if_neg h2] at h
          cases h
          exact Or.inr (Or.inr ⟨text, rfl, h1, rfl, rfl⟩)

/-- The `last_text` accumulator evolves exactly as `lastObserved` does. -/
lemma detStep_cont_lastText (st bl mn : Nat) (lt : Option String)
    (s : Option Nat) (p : Poll) (lt2 : Option String) (s2 : Option Nat)
    (h : detStep st bl mn lt s p = .cont lt2 s2) :
    lt2 = match pollRead bl mn p with
          | some text => if text ≠ "" then some text else lt
          | none => lt := by
  rcases detStep_cont_spec st bl mn lt s p lt2 s2 h with
    ⟨hr, hlt, _⟩ | ⟨text, hr, hne, _, hlt, _⟩ | ⟨text, hr, hnot, hlt, _⟩
  · simp only [hr]
    exact hlt
  · simp only [hr, if_pos hne]
    exact hlt
  · simp only [hr]
    by_cases hne : text ≠ ""
    · rw [if_pos hne]
      rw [hlt]
      by_contra hdiff
      exact hnot ⟨hne, hdiff⟩
    · rw [if_neg hne]
      exact hlt

/-- On the deadline return site, `last_text` is the last non-empty stripped
read among the iterations that ran before the deadline. -/
lemma waitLoopO_timeout_lastText (st toMs bl mn : Nat) :
    ∀ (polls : List Poll) (lt : Option String) (s : Option Nat)
      (res : Option String),
    waitLoopO st toMs bl mn polls lt s = .timeout res →
    res = lastObserved bl mn (polls.takeWhile fun p => p.t < toMs) lt := by
  intro polls
  induction polls with
  | nil =>
    intro lt s res h
    rw [waitLoopO] at h
    cases h
    rfl
  | cons p rest ih =>
    intro lt s res h
    rw [waitLoopO] at h
    by_cases hto : toMs ≤ p.t
    · rw [if_pos hto] at h
      cases h
      have htw : (p :: rest).takeWhile (fun q => q.t < toMs) = [] := by
        rw [List.takeWhile_cons]
        simp [Nat.not_lt.mpr hto]
      rw [htw]
      rfl
    · rw [if_neg hto] at h
      have htw : (p :: rest).takeWhile (fun q => q.t < toMs)
          = p :: rest.takeWhile (fun q => q.t < toMs) := by
        rw [List.takeWhile_cons]
        simp [Nat.not_le.mp hto]
      cases hstep : detStep st bl mn lt s p with
      | done text => simp only [hstep] at h; cases h
      | cont lt2 s2 =>
        simp only [hstep] at h
        rw [htw, lastObserved]
        have hval := detStep_cont_lastText st bl mn lt s p lt2 s2 hstep
        cases hr : pollRead bl mn p with
        | none =>
          simp only [hr] at hval ⊢
          exact hval ▸ ih lt2 s2 res h
        | some text =>
          simp only [hr] at hval ⊢
          exact hval ▸ ih lt2 s2 res h

/-- Once `last_text` holds a value it can never revert to `None`. -/
lemma lastObserved_acc_some (bl mn : Nat) :
    ∀ (polls : List Poll) (x : String),
    lastObserved bl mn polls (some x) ≠ none := by
  intro polls
  induction polls with
  | nil => intro x h; cases h
  | cons p rest ih =>
    intro x h
    cases hr : pollRead bl mn p with
    | none =>
      simp only [lastObserved, hr] at h
      exact ih x h
    | some text =>
      simp only [lastObserved, hr] at h
      by_cases hne : text ≠ ""
      · rw [if_pos hne] at h
        exact ih text h
      · rw [if_neg hne] at h
        exact ih x h

/-- Every value `lastObserved` can produce beyond its seed is a non-empty
read. -/
lemma lastObserved_nonempty (bl mn : Nat) :
    ∀ (polls : List Poll) (acc : Option String),
    (∀ x, acc = some x → x ≠ "") →
    ∀ T, lastObserved bl mn polls acc = some T → T ≠ "" := by
  intro polls
  induction polls with
  | nil =>
    intro acc hacc T h
    exact hacc T h
  | cons p rest ih =>
    intro acc hacc T h
    cases hr : pollRead bl mn p with
    | none =>
      simp only [lastObserved, hr] at h
      exact ih acc hacc T h
    | some text =>
      simp only [lastObserved, hr] at h
      by_cases hne : text ≠ ""
      · rw [if_pos hne] at h
        refine ih (some text) ?_ T h
        intro x hx
        cases hx
        exact hne
      · rw [if_neg hne] at h
        exact ih acc hacc T h

/-- Every value `lastObserved` produces beyond its seed was read by some
iteration of the sequence. -/
lemma lastObserved_mem (bl mn : Nat) :
    ∀ (polls : List Poll) (acc : Option String) (T : String),
    lastObserved bl mn polls acc = some T →
    acc = some T ∨ ∃ p ∈ polls, pollRead bl mn p = some T := by
  intro polls
  induction polls with
  | nil =>
    intro acc T h
    exact Or.inl h
  | cons p rest ih =>
    intro acc T h
    cases hr : pollRead bl mn p with
    | none =>
      simp only [lastObserved, hr] at h
      rcases ih acc T h with hl | ⟨q, hq, hrq⟩
      · exact Or.inl hl
      · exact Or.inr ⟨q, List.mem_cons_of_mem _ hq, hrq⟩
    | some text =>
      simp only [lastObserved, hr] at h
      by_cases hne : text ≠ ""
      · rw [if_pos hne] at h
        rcases ih (some text) T h with hl | ⟨q, hq, hrq⟩
        · cases hl
          exact Or.inr ⟨p, List.mem_cons_self _ _, hr⟩
        · exact Or.inr ⟨q, List.mem_cons_of_mem _ hq, hrq⟩
      · rw [if_neg hne] at h
        rcases ih acc T h with hl | ⟨q, hq, hrq⟩
        · exact Or.inl hl
        · exact Or.inr ⟨q, List.mem_cons_of_mem _ hq, hrq⟩

/-- If every read of the sequence strips to the empty string, no last
observation exists. -/
lemma lastObserved_none_of_empty (bl mn : Nat) :
    ∀ (polls : List Poll),
    (∀ p ∈ polls, ∀ u, pollRead bl mn p = some u → u = "") →
    lastObserved bl mn polls none = none := by
  intro polls
  induction polls with
  | nil => intro _; rfl
  | cons p rest ih =>
    intro hall
    cases hr : pollRead bl mn p with
    | none =>
      simp only [lastObserved, hr]
      exact ih (fun q hq => hall q (List.mem_cons_of_mem _ hq))
    | some text =>
      have htext : text = "" := hall p (List.mem_cons_self _ _) text hr
      simp only [lastObserved, hr]
      rw [if_neg (by simp [htext])]
      exact ih (fun q hq => hall q (List.mem_cons_of_mem _ hq))

/-- Conversely, a `none` result means every read stripped to empty. -/
lemma lastObserved_empty_of_none (bl mn : Nat) :
    ∀ (polls : List Poll),
    lastObserved bl mn polls none = none →
    ∀ p ∈ polls, ∀ u, pollRead bl mn p = some u → u = "" := by
  intro polls
  induction polls with
  | nil => intro _ p hp; cases hp
  | cons p rest ih =>
    intro h q hq u hu
    rcases List.mem_cons.mp hq with hq | hq
    · subst hq
      simp only [lastObserved, hu] at h
      by_contra hne
      rw [if_pos hne] at h
      exact lastObserved_acc_some bl mn rest u h
    · cases hr : pollRead bl mn p with
      | none =>
        simp only [lastObserved, hr] at h
        exact ih h q hq u hu
      | some text =>
        simp only [lastObserved, hr] at h
        by_cases hne : text ≠ ""
        · rw [if_pos hne] at h
          exact absurd h (lastObserved_acc_some bl mn rest text)
        · rw [if_neg hne] at h
          exact ih h q hq u hu

/-- A stability return delivers a non-empty stripped read made by an
iteration that ran before the deadline. -/
lemma waitLoopO_stable_read (st toMs bl mn : Nat) :
    ∀ (polls : List Poll) (lt : Option String) (s : Option Nat) (T : String),
    waitLoopO st toMs bl mn polls lt s = .stable T →
    T ≠ "" ∧ ∃ p ∈ polls.takeWhile (fun q => q.t < toMs),
      pollRead bl mn p = some T := by
  intro polls
  induction polls with
  | nil => intro lt s T h; rw [waitLoopO] at h; cases h
  | cons p rest ih =>
    intro lt s T h
    rw [waitLoopO] at h
    by_cases hto : toMs ≤ p.t
    · rw [if_pos hto] at h; cases h
    · rw [if_neg hto] at h
      have htw : (p :: rest).takeWhile (fun q => q.t < toMs)
          = p :: rest.takeWhile (fun q => q.t < toMs) := by
        rw [List.takeWhile_cons]
        simp [Nat.not_le.mp hto]
      cases hstep : detStep st bl mn lt s p with
      | done text =>
        simp only [hstep] at h
        cases h
        obtain ⟨hr, hne, _, _⟩ := detStep_done_spec st bl mn lt s p T hstep
        exact ⟨hne, p, htw ▸ List.mem_cons_self _ _, hr⟩
      | cont lt2 s2 =>
        simp only [hstep] at h
        obtain ⟨hne, q, hq, hrq⟩ := ih lt2 s2 T h
        exact ⟨hne, q, htw ▸ List.mem_cons_of_mem _ hq, hrq⟩

/-! ### Detector claims C2 and C10 -/

/-- C2: when the text never stabilizes and the deadline elapses (the run
ends at the `return last_text` site), the detector terminates and returns
the last text it observed — the final non-empty stripped read made before
the deadline — and, when no matching block ever produced non-empty text,
it returns `none`, an outcome distinct from any partial result. -/
theorem C2_timeout_result (st toMs bl mn : Nat) (polls : List Poll)
    (res : Option String)
    (h : waitLoopO st toMs bl mn polls none none = .timeout res) :
    wait_for_response_and_get_text st toMs mn bl polls = res ∧
    res = lastObserved bl mn (polls.takeWhile fun p => p.t < toMs) none ∧
    ((∀ p ∈ polls.takeWhile (fun p => p.t < toMs), ∀ u,
        pollRead bl mn p = some u → u = "") → res = none) := by
  refine ⟨?_, ?_, ?_⟩
  · unfold wait_for_response_and_get_text
    rw [h]
  · exact waitLoopO_timeout_lastText st toMs bl mn polls none none res h
  · intro hall
    rw [waitLoopO_timeout_lastText st toMs bl mn polls none none res h]
    exact lastObserved_none_of_empty bl mn _ hall

theorem C2_timeout_result_witness :
    wait_for_response_and_get_text 1800 120000 1 0
      [⟨0, ["a"], true, true⟩, ⟨1000, ["ab"], true, true⟩,
       ⟨120000, [], true, true⟩] = some "ab" :=
  (C2_timeout_result 1800 120000 0 1
    [⟨0, ["a"], true, true⟩, ⟨1000, ["ab"], true, true⟩,
     ⟨120000, [], true, true⟩] (some "ab") (by decide)).1

/-- C10: the detector never returns the empty string — any returned text is
a non-empty stripped read from some iteration — and it returns `none`
exactly when no iteration before the deadline read non-empty text. -/
theorem C10_never_empty (st toMs bl mn : Nat) (polls : List Poll) :
    (∀ T, wait_for_response_and_get_text st toMs mn bl polls = some T →
      T ≠ "" ∧ ∃ p ∈ polls, pollRead bl mn p = some T) ∧
    (wait_for_response_and_get_text st toMs mn bl polls = none ↔
      (∀ p ∈ polls.takeWhile (fun p => p.t < toMs), ∀ u,
        pollRead bl mn p = some u → u = "")) := by
  constructor
  · intro T h
    unfold wait_for_response_and_get_text at h
    cases hout : waitLoopO st toMs bl mn polls none none with
    | stable T2 =>
      simp only [hout] at h
      cases h
      obtain ⟨hne, p, hp, hrp⟩ :=
        waitLoopO_stable_read st toMs bl mn polls none none T hout
      exact ⟨hne, p, (List.takeWhile_sublist _).subset hp, hrp⟩
    | timeout lt =>
      simp only [hout] at h
      have hlo := waitLoopO_timeout_lastText st toMs bl mn polls none none lt hout
      rw [h] at hlo
      refine ⟨lastObserved_nonempty bl mn _ none (fun x hx => by cases hx) T
        hlo.symm, ?_⟩
      rcases lastObserved_mem bl mn _ none T hlo.symm with hacc | ⟨p, hp, hrp⟩
      · cases hacc
      · exact ⟨p, (List.takeWhile_sublist _).subset hp, hrp⟩
  · constructor
    · intro h
      unfold wait_for_response_and_get_text at h
      cases hout : waitLoopO st toMs bl mn polls none none with
      | stable T2 => simp only [hout] at h; cases h
      | timeout lt =>
        simp only [hout] at h
        have hlo := waitLoopO_timeout_lastText st toMs bl mn polls none none lt hout
        rw [h] at hlo
        exact lastObserved_empty_of_none bl mn _ hlo.symm
    · intro hall
      unfold wait_for_response_and_get_text
      cases hout : waitLoopO st toMs bl mn polls none none with
      | stable T2 =>
        obtain ⟨hne, p, hp, hrp⟩ :=
          waitLoopO_stable_read st toMs bl mn polls none none T2 hout
        exact absurd (hall p hp T2 hrp) hne
      | timeout lt =>
        have hlo := waitLoopO_timeout_lastText st toMs bl mn polls none none lt hout
        simp only [hout, hlo]
        exact lastObserved_none_of_empty bl mn _ hall

theorem C10_never_empty_witness :
    (("reply" : String) ≠ "" ∧
      ∃ p ∈ [Poll.mk 0 ["reply"] true true, Poll.mk 2000 ["reply"] true true],
        pollRead 0 1 p = some "reply") ∧
    wait_for_response_and_get_text 1800 120000 1 0
      [Poll.mk 0 [" "] true true, Poll.mk 120000 [] true true] = none := by
  constructor
  · exact (C10_never_empty 1800 120000 0 1
      [Poll.mk 0 ["reply"] true true, Poll.mk 2000 ["reply"] true true]).1
      "reply" (by decide)
  · exact (C10_never_empty 1800 120000 0 1
      [Poll.mk 0 [" "] true true, Poll.mk 120000 [] true true]).2.mpr (by decide)

/-! ## Exit status (`run` lines 276-287) -/

/-- Python truthiness of `text: Optional[str]` (line 277 `if text:`):
`None` and `""` are falsy, any other string truthy. -/
def pyTruthy : Option String → Bool
  | none => false
  | some s => s != ""

/-- Lines 276-287 of `run`: with `text` the detector's result, a truthy
text is printed to standard output and the coroutine returns 0 (after a
best-effort window minimization whose failure is swallowed, lines 279-283);
otherwise the "No response captured from Gemini." diagnostic goes to
standard error and it returns 2. -/
def runResult (text : Option String) : Nat :=
  if pyTruthy text then 0 else 2

/-- C4 counterexample: a run whose detector reaches the deadline with a
partial, never-stabilized text ("part", still changing at 1000 ms, deadline
at 120000 ms) exits 0 — `run` only tests truthiness of the returned text —
so the claimed exit status 2 is not produced and 0 is not reserved for
confirmed-stable replies. -/
theorem C4_counterexample :
    waitLoopO 1800 120000 0 1
      [⟨0, ["par"], true, true⟩, ⟨1000, ["part"], true, true⟩,
       ⟨120000, [], true, true⟩] none none = .timeout (some "part") ∧
    runResult (wait_for_response_and_get_text 1800 120000 1 0
      [⟨0, ["par"], true, true⟩, ⟨1000, ["part"], true, true⟩,
       ⟨120000, [], true, true⟩]) = 0 ∧
    runResult (wait_for_response_and_get_text 1800 120000 1 0
      [⟨0, ["par"], true, true⟩, ⟨1000, ["part"], true, true⟩,
       ⟨120000, [], true, true⟩]) ≠ 2 := by
  refine ⟨by decide, by decide, by decide⟩

/-- C4 amended: the exit code depends only on the truthiness of the
detector's returned text.  A deadline exit with non-empty partial text
yields exit 0, indistinguishable from success; exit 2 occurs exactly when
the detector returned `None` (it never returns `""`); a stability return
always exits 0. -/
theorem C4_amended (st toMs bl mn : Nat) (polls : List Poll) :
    (∀ lt, waitLoopO st toMs bl mn polls none none = .timeout lt →
      runResult (wait_for_response_and_get_text st toMs mn bl polls)
        = if pyTruthy lt then 0 else 2) ∧
    (∀ T, waitLoopO st toMs bl mn polls none none = .stable T →
      runResult (wait_for_response_and_get_text st toMs mn bl polls) = 0) := by
  constructor
  · intro lt h
    unfold wait_for_response_and_get_text runResult
    simp only [h]
  · intro T h
    obtain ⟨hne, _, _, _⟩ := waitLoopO_stable_read st toMs bl mn polls none none T h
    unfold wait_for_response_and_get_text runResult
    simp only [h, pyTruthy]
    rw [if_pos (bne_iff_ne.mpr hne)]

theorem C4_amended_witness :
    runResult (wait_for_response_and_get_text 1800 120000 1 0
      [⟨0, ["x"], true, true⟩, ⟨900, ["xy"], true, true⟩,
       ⟨120000, [], true, true⟩]) = 0 ∧
    runResult (wait_for_response_and_get_text 1800 120000 1 0
      [⟨0, ["ok"], true, true⟩, ⟨2000, ["ok"], true, true⟩]) = 0 := by
  constructor
  · exact ((C4_amended 1800 120000 0 1
      [⟨0, ["x"], true, true⟩, ⟨900, ["xy"], true, true⟩,
       ⟨120000, [], true, true⟩]).1 (some "xy") (by decide)).trans (by decide)
  · exact (C4_amended 1800 120000 0 1
      [⟨0, ["ok"], true, true⟩, ⟨2000, ["ok"], true, true⟩]).2 "ok" (by decide)

/-! ## Baseline capture ordering (`run` lines 272-276, detector line 170)

`run` awaits `_type_and_send` (line 273) and only then awaits
`_wait_for_response_and_get_text` (line 276); `baseline_count` is computed
at the top of the latter (line 170), i.e. strictly after submission.
`blocksAt t` is the page's list of matching response blocks at millisecond
`t` of the run. -/

structure RunSchedule where
  blocksAt : Nat → List String
  tSubmit : Nat
  tDetect : Nat
  submit_lt_detect : tSubmit < tDetect

/-- Line 170: the detector's baseline is the matching-block count at
detector entry (`tDetect`), not at any pre-submission instant. -/
def runBaselineCount (rs : RunSchedule) : Nat :=
  (rs.blocksAt rs.tDetect).length

/-- A run in which the sole response block appears between submission
(`t = 0`) and detector entry (`t = 1`). -/
def fastReplySchedule : RunSchedule :=
  ⟨fun t => if t = 0 then [] else ["resp"], 0, 1, Nat.zero_lt_one⟩

/-- C5 counterexample: the claim says the baseline is captured before the
prompt is submitted.  In `fastReplySchedule` the response block renders
between submission (t = 0, where the count is 0) and detector entry
(t = 1), so the captured baseline is 1 — not the pre-submission count 0 —
and the detector thereafter waits for a count of at least 2, returning
`None` even though the (new) response block is present for the whole
deadline. -/
theorem C5_counterexample :
    runBaselineCount fastReplySchedule = 1 ∧
    fastReplySchedule.tSubmit = 0 ∧
    (fastReplySchedule.blocksAt 0).length = 0 ∧
    (1 : Nat) ≠ 0 ∧
    wait_for_response_and_get_text 1800 120000 1 (runBaselineCount fastReplySchedule)
      [⟨5, fastReplySchedule.blocksAt 5, true, true⟩,
       ⟨120000, fastReplySchedule.blocksAt 120000, true, true⟩] = none := by
  refine ⟨rfl, rfl, rfl, by decide, by decide⟩

/-- C5 amended: the baseline count is captured at detector entry, which
`run` reaches strictly after submitting the prompt; given it, the detector
only ever reads once the block count reaches `baseline + min_new`, and the
text read is the stripped last block, at 0-based position
`count - 1 ≥ baseline` — never a block at a pre-baseline position. -/
theorem C5_amended :
    (∀ rs : RunSchedule,
      runBaselineCount rs = (rs.blocksAt rs.tDetect).length ∧
      rs.tSubmit < rs.tDetect) ∧
    (∀ bl mn (p : Poll) u, 1 ≤ mn → pollRead bl mn p = some u →
      bl + 1 ≤ p.blocks.length ∧ bl ≤ p.blocks.length - 1 ∧
      u = pyStrip (p.blocks.getLast?.getD "")) := by
  constructor
  · intro rs
    exact ⟨rfl, rs.submit_lt_detect⟩
  · intro bl mn p u hmn hr
    unfold pollRead at hr
    by_cases hc : p.blocks.length < max 1 (bl + mn)
    · rw [if_pos hc] at hr; cases hr
    · rw [if_neg hc] at hr
      have hlen : max 1 (bl + mn) ≤ p.blocks.length := Nat.not_lt.mp hc
      have h1 : bl + 1 ≤ p.blocks.length := by
        have h2 : bl + mn ≤ max 1 (bl + mn) := Nat.le_max_right _ _
        omega
      cases hatt : p.attached with
      | false => simp [hatt] at hr
      | true =>
        cases hrok : p.readOk with
        | false => simp [hatt, hrok] at hr
        | true =>
          simp only [hatt, hrok, Bool.not_true, Bool.false_eq_true, if_false,
            Option.some.injEq] at hr
          exact ⟨h1, by omega, hr.symm⟩

theorem C5_amended_witness :
    (1 : Nat) + 1 ≤ (["old", "new"] : List String).length ∧
    (1 : Nat) ≤ (["old", "new"] : List String).length - 1 ∧
    "new" = pyStrip ((["old", "new"] : List String).getLast?.getD "") :=
  C5_amended.2 1 1 ⟨5, ["old", "new"], true, true⟩ "new" (by decide) (by decide)

/-! ## Input delivery (`_type_and_send`, lines 115-147)

The awaited Playwright operations are modelled as success bits / results.
`innerTextAfterType` is the result of `input_box.inner_text()` after
typing: `none` when that call raises (the inner try of lines 127-130 turns
this into an empty read-back `v = ""`).  The select-all/delete clearing
(lines 119-123) is wrapped in its own try, changes no modelled state and is
omitted.  `_dom_insert_fallback` (lines 72-112) wraps its `evaluate` in a
try returning `False`, so a single bit `domInsertOk` covers both an in-page
failure and a raised exception.  A failure of `page.keyboard.type`
(lines 138-141) is likewise absorbed, so `kbTypeOk` has no influence on
control flow — faithfully to the source, where nothing reads its result. -/

structure SendEnv where
  clickOk : Bool
  typeOk : Bool
  innerTextAfterType : Option String
  domInsertOk : Bool
  kbTypeOk : Bool
  pressTargetOk : Bool
  pressPageOk : Bool
deriving DecidableEq, Repr

/-- Which fallback strategies ran, and where the Enter press landed. -/
structure SendTrace where
  triedDom : Bool
  triedKb : Bool
  enterOnTarget : Bool
deriving DecidableEq, Repr

/-- `_type_and_send` either raises (an exception escapes the function) or
completes, having attempted the recorded strategies. -/
inductive SendOutcome where
  | raised
  | completed (trace : SendTrace)
deriving DecidableEq, Repr

/-- Lines 124-134: direct interaction succeeded when `input_box.type` did
not raise and the stripped read-back of the element text is non-empty. -/
def typed_after_direct (env : SendEnv) : Bool :=
  env.typeOk && (match env.innerTextAfterType with
    | some v => pyStrip v != ""
    | none => false)

/-- `_type_and_send(page, question)`, lines 115-147:
* line 117 `await input_box.click()` is not inside any try — its failure
  propagates;
* strategy 1 (lines 124-134) sets `typed`;
* strategy 2 (lines 135-136) runs only if `typed` is false;
* strategy 3 (lines 137-141) runs only if strategy 2 also returned false,
  and its own failure is absorbed;
* submission (lines 142-146): `input_box.press` on the target, and on any
  exception `page.keyboard.press` — the latter is inside the `except`
  handler, so its failure propagates. -/
def type_and_send (env : SendEnv) : SendOutcome :=
  if !env.clickOk then .raised
  else
    let typed := typed_after_direct env
    let triedDom := !typed
    let triedKb := !typed && !env.domInsertOk
    if env.pressTargetOk then .completed ⟨triedDom, triedKb, true⟩
    else if env.pressPageOk then .completed ⟨triedDom, triedKb, false⟩
    else .raised

/-- C6 counterexample: the claim says `_type_and_send` never raises, but
the initial `await input_box.click()` (line 117) is unguarded: an
environment where the click raises makes the whole pipeline raise before
any strategy is attempted. -/
theorem C6_counterexample :
    type_and_send ⟨false, true, some "question", true, true, true, true⟩
      = .raised ∧
    (∀ tr, SendOutcome.raised ≠ SendOutcome.completed tr) :=
  ⟨rfl, fun _ h => by cases h⟩

/-- C6 amended: once the initial click has succeeded and at least one of
the two Enter dispatches succeeds, the pipeline completes without raising,
whatever the three strategies do; the strategies run strictly in order
(in-page insertion only after direct typing read back empty, raw keyboard
only after the insertion also failed), exhausting all three still
completes silently, and Enter lands on the located target exactly when that
dispatch succeeds, else on the page's keyboard focus.  The pipeline raises
exactly when the click fails or both Enter dispatches fail. -/
theorem C6_amended (env : SendEnv) :
    (env.clickOk = true → (env.pressTargetOk = true ∨ env.pressPageOk = true) →
      type_and_send env = .completed
        ⟨!typed_after_direct env,
         !typed_after_direct env && !env.domInsertOk,
         env.pressTargetOk⟩) ∧
    (type_and_send env = .raised ↔
      (env.clickOk = false ∨
        (env.pressTargetOk = false ∧ env.pressPageOk = false))) := by
  constructor
  · intro hclick hpress
    unfold type_and_send
    rw [hclick]
    cases hpt : env.pressTargetOk with
    | true => simp [hpt]
    | false =>
      rcases hpress with h | h
      · rw [hpt] at h; cases h
      · simp [hpt, h]
  · constructor
    · intro h
      unfold type_and_send at h
      cases hclick : env.clickOk with
      | false => exact Or.inl rfl
      | true =>
        rw [hclick] at h
        cases hpt : env.pressTargetOk with
        | true => simp [hpt] at h
        | false =>
          cases hpp : env.pressPageOk with
          | true => simp [hpt, hpp] at h
          | false => exact Or.inr ⟨rfl, rfl⟩
    · intro h
      rcases h with h | ⟨h1, h2⟩
      · unfold type_and_send
        rw [h]
        rfl
      · unfold type_and_send
        cases hclick : env.clickOk with
        | false => rfl
        | true => simp [h1, h2]

theorem C6_amended_witness :
    type_and_send ⟨true, false, none, false, false, false, true⟩
      = .completed ⟨true, true, false⟩ ∧
    type_and_send ⟨true, true, some "question", true, true, false, false⟩
      = .raised := by
  constructor
  · exact (C6_amended ⟨true, false, none, false, false, false, true⟩).1
      rfl (Or.inr rfl)
  · exact (C6_amended ⟨true, true, some "question", true, true, false, false⟩).2.mpr
      (Or.inr ⟨rfl, rfl⟩)

/-! ### Claim C1: the stability invariant -/

/-- Full soundness of a stability return, for an arbitrary starting state:
the returning iteration `j` read the non-empty text `T` before the
deadline, and the `since` timestamp authorizing it was either inherited
from the initial state (in which case every earlier non-empty read of the
run already equalled `T`) or set by an earlier iteration `i` that read `T`,
at least `stableMs` before `j`, with every non-empty read in between equal
to `T`. -/
lemma waitLoopO_stable_window (st toMs bl mn : Nat) :
    ∀ (polls : List Poll) (lt : Option String) (s : Option Nat) (T : String),
    waitLoopO st toMs bl mn polls lt s = .stable T →
    T ≠ "" ∧
    ∃ j, ∃ hj : j < polls.length,
      pollRead bl mn (polls.get ⟨j, hj⟩) = some T ∧
      (polls.get ⟨j, hj⟩).t < toMs ∧
      ((∃ sv, lt = some T ∧ s = some sv ∧
          st ≤ (polls.get ⟨j, hj⟩).t - sv ∧
          (∀ k, ∀ hk : k < polls.length, k ≤ j → ∀ u,
            pollRead bl mn (polls.get ⟨k, hk⟩) = some u → u ≠ "" → u = T)) ∨
       (∃ i, ∃ hi : i < polls.length, i ≤ j ∧
          pollRead bl mn (polls.get ⟨i, hi⟩) = some T ∧
          st ≤ (polls.get ⟨j, hj⟩).t - (polls.get ⟨i, hi⟩).t ∧
          (∀ k, ∀ hk : k < polls.length, i ≤ k → k ≤ j → ∀ u,
            pollRead bl mn (polls.get ⟨k, hk⟩) = some u → u ≠ "" → u = T))) := by
  intro polls
  induction polls with
  | nil => intro lt s T h; rw [waitLoopO] at h; cases h
  | cons p rest ih =>
    intro lt s T h
    rw [waitLoopO] at h
    by_cases hto : toMs ≤ p.t
    · rw [if_pos hto] at h; cases h
    · rw [if_neg hto] at h
      cases hstep : detStep st bl mn lt s p with
      | done text =>
        simp only [hstep] at h
        cases h
        obtain ⟨hr, hne, hlt, sv, hs, hwin⟩ :=
          detStep_done_spec st bl mn lt s p T hstep
        refine ⟨hne, 0, Nat.succ_pos _, hr, Nat.not_le.mp hto,
          Or.inl ⟨sv, hlt, hs, hwin, ?_⟩⟩
        intro k hk hk0 u hu hune
        have hk0' : k = 0 := Nat.le_zero.mp hk0
        subst hk0'
        have : some T = some u := hr.symm.trans hu
        exact (Option.some_inj.mp this).symm
      | cont lt2 s2 =>
        simp only [hstep] at h
        obtain ⟨hT, j, hj, hrj, htj, hcase⟩ := ih lt2 s2 T h
        have hj' : j + 1 < (p :: rest).length := Nat.succ_lt_succ hj
        refine ⟨hT, j + 1, hj', hrj, htj, ?_⟩
        rcases detStep_cont_spec st bl mn lt s p lt2 s2 hstep with
          ⟨hrnone, hlt2, hs2⟩ | ⟨text, hrsome, htne, hltne, hlt2, hs2⟩ |
          ⟨text, hrsome, hnot, hlt2, hs2⟩
        · -- the head iteration read nothing; the state is inherited
          rcases hcase with ⟨sv, hlteq, hseq, hwin, hclean⟩ |
            ⟨i, hi, hij, hri, hwin, hclean⟩
          · rw [hlt2] at hlteq
            rw [hs2] at hseq
            refine Or.inl ⟨sv, hlteq, hseq, hwin, ?_⟩
            intro k hk hkj u hu hune
            cases k with
            | zero =>
              rw [show (p :: rest).get ⟨0, hk⟩ = p from rfl, hrnone] at hu
              cases hu
            | succ k =>
              exact hclean k (Nat.lt_of_succ_lt_succ hk)
                (Nat.le_of_succ_le_succ hkj) u hu hune
          · refine Or.inr ⟨i + 1, Nat.succ_lt_succ hi, Nat.succ_le_succ hij,
              hri, hwin, ?_⟩
            intro k hk hik hkj u hu hune
            cases k with
            | zero => exact absurd hik (Nat.not_succ_le_zero i)
            | succ k =>
              exact hclean k (Nat.lt_of_succ_lt_succ hk)
                (Nat.le_of_succ_le_succ hik) (Nat.le_of_succ_le_succ hkj)
                u hu hune
        · -- the head iteration stored a changed non-empty text and reset since
          rcases hcase with ⟨sv, hlteq, hseq, hwin, hclean⟩ |
            ⟨i, hi, hij, hri, hwin, hclean⟩
          · have htext : text = T := by
              rw [hlt2] at hlteq
              exact Option.some_inj.mp hlteq
            have hsv : sv = p.t := by
              rw [hs2] at hseq
              exact (Option.some_inj.mp hseq).symm
            subst htext
            refine Or.inr ⟨0, Nat.succ_pos _, Nat.zero_le _, hrsome, ?_, ?_⟩
            · rw [show ((p :: rest).get ⟨0, Nat.succ_pos _⟩).t = p.t from rfl,
                ← hsv]
              exact hwin
            · intro k hk _ hkj u hu hune
              cases k with
              | zero =>
                rw [show (p :: rest).get ⟨0, hk⟩ = p from rfl, hrsome] at hu
                exact (Option.some_inj.mp hu).symm
              | succ k =>
                exact hclean k (Nat.lt_of_succ_lt_succ hk)
                  (Nat.le_of_succ_le_succ hkj) u hu hune
          · refine Or.inr ⟨i + 1, Nat.succ_lt_succ hi, Nat.succ_le_succ hij,
              hri, hwin, ?_⟩
            intro k hk hik hkj u hu hune
            cases k with
            | zero => exact absurd hik (Nat.not_succ_le_zero i)
            | succ k =>
              exact hclean k (Nat.lt_of_succ_lt_succ hk)
                (Nat.le_of_succ_le_succ hik) (Nat.le_of_succ_le_succ hkj)
                u hu hune
        · -- the head iteration read empty or unchanged text; state untouched
          rcases hcase with ⟨sv, hlteq, hseq, hwin, hclean⟩ |
            ⟨i, hi, hij, hri, hwin, hclean⟩
          · rw [hlt2] at hlteq
            rw [hs2] at hseq
            refine Or.inl ⟨sv, hlteq, hseq, hwin, ?_⟩
            intro k hk hkj u hu hune
            cases k with
            | zero =>
              rw [show (p :: rest).get ⟨0, hk⟩ = p from rfl, hrsome] at hu
              have hutext : u = text := (Option.some_inj.mp hu).symm
              subst hutext
              rcases Decidable.not_and_iff_or_not.mp hnot with hc | hc
              · exact absurd (Decidable.not_not.mp hc) hune
              · have hltu : lt = some u := Decidable.not_not.mp hc
                rw [hlteq] at hltu
                exact (Option.some_inj.mp hltu).symm
            | succ k =>
              exact hclean k (Nat.lt_of_succ_lt_succ hk)
                (Nat.le_of_succ_le_succ hkj) u hu hune
          · refine Or.inr ⟨i + 1, Nat.succ_lt_succ hi, Nat.succ_le_succ hij,
              hri, hwin, ?_⟩
            intro k hk hik hkj u hu hune
            cases k with
            | zero => exact absurd hik (Nat.not_succ_le_zero i)
            | succ k =>
              exact hclean k (Nat.lt_of_succ_lt_succ hk)
                (Nat.le_of_succ_le_succ hik) (Nat.le_of_succ_le_succ hkj)
                u hu hune

/-- C1 counterexample: the claim requires the unchanged-since timestamp to
be reset at *any* poll whose read differs from the previous snapshot, and
the returned text to have remained identical across the reads spanning the
stability window.  A read that strips to `""` differs from the snapshot
"A" yet resets nothing (lines 195-199 both test `text` for truthiness), and
the run reading "A" (0 ms), "" (500 ms), "A" (2000 ms) returns "A" as
STABLE even though its reads were not identical across the window — had
`since` been reset at 500 ms, only 1500 ms < 1800 ms would have elapsed. -/
theorem C1_counterexample :
    detStep 1800 0 1 (some "A") (some 0) ⟨500, [""], true, true⟩
      = .cont (some "A") (some 0) ∧
    pollRead 0 1 ⟨500, [""], true, true⟩ = some "" ∧
    ("" : String) ≠ "A" ∧
    waitLoopO 1800 120000 0 1
      [⟨0, ["A"], true, true⟩, ⟨500, [""], true, true⟩,
       ⟨2000, ["A"], true, true⟩] none none = .stable "A" := by
  refine ⟨by decide, by decide, by decide, by decide⟩

/-- C1 amended: restricted to non-empty reads the invariant holds.  (1) A
stability return of `T` from the initial state implies `T` is non-empty and
there are reads `i ≤ j` of exactly `T`, at least `stableMs` apart, with
every *non-empty* read in between equal to `T` (the returned text is the
stripped read of the returning iteration).  (2) At any poll whose non-empty
stripped read differs from the snapshot, the snapshot is updated, `since`
is reset to the poll's time, and no completion is signalled.  (3) A read
that strips to empty leaves the tracker state unchanged and never signals
completion. -/
theorem C1_amended :
    (∀ st toMs bl mn (polls : List Poll) (T : String),
      waitLoopO st toMs bl mn polls none none = .stable T →
      T ≠ "" ∧
      ∃ i j, ∃ hi : i < polls.length, ∃ hj : j < polls.length, i ≤ j ∧
        pollRead bl mn (polls.get ⟨i, hi⟩) = some T ∧
        pollRead bl mn (polls.get ⟨j, hj⟩) = some T ∧
        st ≤ (polls.get ⟨j, hj⟩).t - (polls.get ⟨i, hi⟩).t ∧
        (∀ k, ∀ hk : k < polls.length, i ≤ k → k ≤ j → ∀ u,
          pollRead bl mn (polls.get ⟨k, hk⟩) = some u → u ≠ "" → u = T)) ∧
    (∀ st bl mn lt s (p : Poll) (text : String),
      pollRead bl mn p = some text → text ≠ "" → lt ≠ some text →
      detStep st bl mn lt s p = .cont (some text) (some p.t)) ∧
    (∀ st bl mn lt s (p : Poll),
      pollRead bl mn p = some "" → detStep st bl mn lt s p = .cont lt s) := by
  refine ⟨?_, ?_, ?_⟩
  · intro st toMs bl mn polls T h
    obtain ⟨hT, j, hj, hrj, _, hcase⟩ :=
      waitLoopO_stable_window st toMs bl mn polls none none T h
    rcases hcase with ⟨sv, hlteq, _, _, _⟩ | ⟨i, hi, hij, hri, hwin, hclean⟩
    · cases hlteq
    · exact ⟨hT, i, j, hi, hj, hij, hri, hrj, hwin, hclean⟩
  · intro st bl mn lt s p text hr hne hdiff
    unfold detStep
    simp only [hr]
    rw [if_pos ⟨hne, hdiff⟩]
  · intro st bl mn lt s p hr
    unfold detStep
    simp only [hr]
    rw [if_neg (fun hcon => hcon.1 rfl)]
    cases s with
    | none => rfl
    | some sv =>
      exact if_neg (fun hcon => hcon.1 rfl)

theorem C1_amended_witness :
    (("A" : String) ≠ "" ∧
      ∃ i j, ∃ hi : i < ([⟨0, ["A"], true, true⟩,
          ⟨2000, ["A"], true, true⟩] : List Poll).length,
        ∃ hj : j < ([⟨0, ["A"], true, true⟩,
          ⟨2000, ["A"], true, true⟩] : List Poll).length, i ≤ j ∧
        pollRead 0 1 (([⟨0, ["A"], true, true⟩,
          ⟨2000, ["A"], true, true⟩] : List Poll).get ⟨i, hi⟩) = some "A" ∧
        pollRead 0 1 (([⟨0, ["A"], true, true⟩,
          ⟨2000, ["A"], true, true⟩] : List Poll).get ⟨j, hj⟩) = some "A" ∧
        1800 ≤ (([⟨0, ["A"], true, true⟩,
            ⟨2000, ["A"], true, true⟩] : List Poll).get ⟨j, hj⟩).t
          - (([⟨0, ["A"], true, true⟩,
            ⟨2000, ["A"], true, true⟩] : List Poll).get ⟨i, hi⟩).t ∧
        (∀ k, ∀ hk : k < ([⟨0, ["A"], true, true⟩,
            ⟨2000, ["A"], true, true⟩] : List Poll).length, i ≤ k → k ≤ j →
          ∀ u, pollRead 0 1 (([⟨0, ["A"], true, true⟩,
            ⟨2000, ["A"], true, true⟩] : List Poll).get ⟨k, hk⟩) = some u →
            u ≠ "" → u = "A")) ∧
    detStep 1800 0 1 (some "old") (some 0) ⟨300, ["new"], true, true⟩
      = .cont (some "new") (some 300) ∧
    detStep 1800 0 1 (some "old") (some 0) ⟨300, [""], true, true⟩
      = .cont (some "old") (some 0) :=
  ⟨C1_amended.1 1800 120000 0 1
      [⟨0, ["A"], true, true⟩, ⟨2000, ["A"], true, true⟩] "A" (by decide),
   C1_amended.2.1 1800 0 1 (some "old") (some 0) ⟨300, ["new"], true, true⟩
      "new" (by decide) (by decide) (by decide),
   C1_amended.2.2 1800 0 1 (some "old") (some 0) ⟨300, [""], true, true⟩
      (by decide)⟩
